import Mathlib

/-!
Shallow embedding of ALTIDES (`src/altides.py`), a document accessibility
utility that inserts generated alternative text into PPTX, DOCX and PDF
files.  Pure data manipulation (JSON request construction, path suffixing,
threshold filtering, per-shape traversal) is translated into executable
Lean functions; external effects (the HTTP captioning call, document
opening, filesystem globbing) become oracle function parameters, and
Python exceptions become `Except String` values that the embedding
propagates or catches exactly where the source does.
-/

set_option autoImplicit false

namespace Altides

/-! ## Python string helpers -/

/-- The ASCII whitespace characters stripped by Python's `str.strip()`. -/
def isPySpace (c : Char) : Bool :=
  c = ' ' || c = '\t' || c = '\n' || c = '\x0d' || c = '\x0b' || c = '\x0c'

/-- Python `str.strip()` on a character list: drop whitespace from both ends. -/
def pyStripChars (cs : List Char) : List Char :=
  ((cs.dropWhile isPySpace).reverse.dropWhile isPySpace).reverse

/-- Python `str.strip()` on a string. -/
def pyStrip (s : String) : String :=
  String.mk (pyStripChars s.toList)

/-- Index of the last occurrence of `c` in `cs`, scanning with a counter. -/
def lastIdxAux (c : Char) : List Char → Nat → Option Nat → Option Nat
  | [], _, acc => acc
  | x :: xs, i, acc => lastIdxAux c xs (i + 1) (if x = c then some i else acc)

/-- Index of the last occurrence of `c` in `cs`, if any. -/
def lastIdx (cs : List Char) (c : Char) : Option Nat :=
  lastIdxAux c cs 0 none

/-- POSIX `os.path.splitext`: split at the last dot of the basename,
    unless every character of the basename before that dot is itself a
    dot (so `.bashrc` has no extension). -/
def splitextChars (p : List Char) : List Char × List Char :=
  let fnameStart : Nat :=
    match lastIdx p '/' with
    | none => 0
    | some i => i + 1
  match lastIdx p '.' with
  | none => (p, [])
  | some d =>
    if fnameStart ≤ d ∧ ((p.drop fnameStart).take (d - fnameStart)).any (fun c => c ≠ '.') then
      (p.take d, p.drop d)
    else
      (p, [])

/-- Python `os.path.splitext` on strings. -/
def splitextStr (p : String) : String × String :=
  let r := splitextChars p.toList
  (String.mk r.1, String.mk r.2)

/-- The lowercased extension `os.path.splitext(path)[1].lower()`. -/
def extLower (p : String) : String :=
  String.mk (((splitextChars p.toList).2).map Char.toLower)

/-- The path `base + "_alt" + ext` where `(base, ext) = os.path.splitext(path)`:
    the derived output path of every adapter. -/
def altPath (p : String) : String :=
  String.mk ((splitextChars p.toList).1 ++ "_alt".toList ++ (splitextChars p.toList).2)

/-! ## Base64 (Python `base64.b64encode` on bytes, standard alphabet) -/

/-- The standard base64 alphabet. -/
def base64Alphabet : List Char :=
  "ABCDEFGHIJKLMNOPQRSTUVWXYZabcdefghijklmnopqrstuvwxyz0123456789+/".toList

/-- The base64 digit for a 6-bit value. -/
def b64Char (n : Nat) : Char :=
  base64Alphabet.getD n 'A'

/-- Standard base64 encoding of a byte list, with `=` padding. -/
def base64Encode : List Nat → List Char
  | [] => []
  | [a] => [b64Char (a / 4), b64Char (a % 4 * 16), '=', '=']
  | [a, b] => [b64Char (a / 4), b64Char (a % 4 * 16 + b / 16), b64Char (b % 16 * 4), '=']
  | a :: b :: c :: rest =>
    b64Char (a / 4) :: b64Char (a % 4 * 16 + b / 16) ::
      b64Char (b % 16 * 4 + c / 64) :: b64Char (c % 64) :: base64Encode rest

/-! ## JSON values and the captioning client -/

/-- JSON values, as built for the request payload and parsed from the
    response body. -/
inductive Json where
  | null
  | bool (b : Bool)
  | num (q : Rat)
  | str (s : String)
  | arr (xs : List Json)
  | obj (fields : List (String × Json))

/-- Dictionary access `j[k]`: `KeyError` when the key is absent,
    `TypeError` when `j` is not an object. -/
def jGet (j : Json) (k : String) : Except String Json :=
  match j with
  | Json.obj fields =>
    match fields.lookup k with
    | some v => Except.ok v
    | none => Except.error ("KeyError: " ++ k)
  | _ => Except.error "TypeError: not a dict"

/-- List indexing `j[i]`: `IndexError` when out of range, `TypeError`
    when `j` is not an array. -/
def jIndex (j : Json) (i : Nat) : Except String Json :=
  match j with
  | Json.arr xs =>
    match xs.get? i with
    | some v => Except.ok v
    | none => Except.error "IndexError"
  | _ => Except.error "TypeError: not a list"

/-- The fixed instruction sent with every image. -/
def instructionText : String :=
  "この画像の内容を英語で説明してください。Important - No talk, just go!"

/-- The fixed sentinel returned on any captioning failure. -/
def sentinelAltText : String := "代替テキスト生成エラー"

/-- The JSON request payload built by `generate_alt_text` for the given
    model name and image bytes. -/
def buildPayload (model : String) (imageBytes : List Nat) : Json :=
  Json.obj
    [("model", Json.str model),
     ("messages", Json.arr
       [Json.obj
         [("role", Json.str "user"),
          ("content", Json.arr
            [Json.obj
              [("type", Json.str "image_url"),
               ("image_url", Json.obj
                 [("url", Json.str
                    ("data:image/png;base64," ++ String.mk (base64Encode imageBytes)))])],
             Json.obj
              [("type", Json.str "text"),
               ("text", Json.str instructionText)]])]]),
     ("temperature", Json.num (7 / 10)),
     ("max_tokens", Json.num 4096),
     ("stream", Json.bool false)]

/-- Outcome of `requests.post`: either the call raised (connection error,
    timeout), or it returned a status code and a body whose `.json()`
    parse may itself fail. -/
inductive HttpResult where
  | raised (msg : String)
  | got (status : Nat) (body : Except String Json)

/-- Navigation `data["choices"][0]["message"]["content"]`, propagating the
    `KeyError` / `IndexError` / `TypeError` of each step. -/
def contentField (data : Json) : Except String Json := do
  let choices ← jGet data "choices"
  let choice0 ← jIndex choices 0
  let message ← jGet choice0 "message"
  jGet message "content"

/-- The access `data["choices"][0]["message"]["content"].strip()`: the navigation
    followed by `.strip()`, which raises `AttributeError` on a
    non-string value. -/
def extractContent (data : Json) : Except String String :=
  match contentField data with
  | Except.error e => Except.error e
  | Except.ok (Json.str s) => Except.ok (pyStrip s)
  | Except.ok _ => Except.error "AttributeError: strip"

/-- Embeds `generate_alt_text(image_bytes)`, with the HTTP transport abstracted
    as an oracle `post` from the request payload to an `HttpResult`.
    `raise_for_status` raises exactly when the status is at least 400;
    every exception of the `try` block collapses to the sentinel. -/
def generate_alt_text (post : Json → HttpResult) (model : String)
    (imageBytes : List Nat) : String :=
  match post (buildPayload model imageBytes) with
  | HttpResult.raised _ => sentinelAltText
  | HttpResult.got status body =>
    if 400 ≤ status then sentinelAltText
    else
      match body with
      | Except.error _ => sentinelAltText
      | Except.ok data =>
        match extractContent data with
        | Except.error _ => sentinelAltText
        | Except.ok s => s

/-- Decidable test that a given HTTP outcome makes the captioning call
    fail (transport error, non-success status, unparsable body, or
    missing/malformed response fields). -/
def httpFailed (r : HttpResult) : Bool :=
  match r with
  | HttpResult.raised _ => true
  | HttpResult.got status body =>
    if 400 ≤ status then true
    else
      match body with
      | Except.error _ => true
      | Except.ok data =>
        match extractContent data with
        | Except.error _ => true
        | Except.ok _ => false

/-! ## PPTX adapter (`process_pptx`) -/

/-- The code of `MSO_SHAPE_TYPE.PICTURE` in python-pptx. -/
def MSO_PICTURE : Nat := 13

/-- A shape on a slide: its `shape_type` code, the result of reading
    `shape.image.blob` (which can raise), and the `descr` attribute of
    its `cNvPr` element. -/
structure PShape where
  shapeType : Nat
  blob : Except String (List Nat)
  descr : String

/-- A presentation: its slides, each a list of shapes. -/
abbrev Pptx : Type := List (List PShape)

/-- The body of the per-shape loop: a picture shape whose blob reads
    successfully gets its `descr` set to the generated caption and flips
    `updated`; an exception while reading the blob is caught and the
    shape is left unchanged; non-picture shapes are not touched.  The
    third component records the byte strings passed to the captioning
    client. -/
def stepShape (cap : List Nat → String) (s : PShape) :
    PShape × Bool × List (List Nat) :=
  if s.shapeType = MSO_PICTURE then
    match s.blob with
    | Except.error _ => (s, false, [])
    | Except.ok bytes => ({ s with descr := cap bytes }, true, [bytes])
  else (s, false, [])

/-- The inner loop over the shapes of one slide. -/
def processShapes (cap : List Nat → String) :
    List PShape → List PShape × Bool × List (List Nat)
  | [] => ([], false, [])
  | s :: rest =>
    let r := stepShape cap s
    let t := processShapes cap rest
    (r.1 :: t.1, r.2.1 || t.2.1, r.2.2 ++ t.2.2)

/-- The outer loop over the slides of the presentation. -/
def processSlides (cap : List Nat → String) :
    Pptx → Pptx × Bool × List (List Nat)
  | [] => ([], false, [])
  | sl :: rest =>
    let r := processShapes cap sl
    let t := processSlides cap rest
    (r.1 :: t.1, r.2.1 || t.2.1, r.2.2 ++ t.2.2)

/-- What an adapter run produces: the returned path (`None` when nothing
    was updated), the files written by `save`, and the trace of
    captioning calls made. -/
structure AdapterOut (Doc : Type) where
  result : Option String
  writes : List (String × Doc)
  calls : List (List Nat)

/-- Embeds `process_pptx(file_path)`: open the presentation (`Presentation(...)`
    may raise, and the exception is not caught), traverse every shape of
    every slide, and when at least one shape was updated save to
    `base + "_alt" + ext` and return that path. -/
def process_pptx (cap : List Nat → String)
    (openPptx : String → Except String Pptx) (path : String) :
    Except String (AdapterOut Pptx) :=
  match openPptx path with
  | Except.error e => Except.error e
  | Except.ok slides =>
    let r := processSlides cap slides
    if r.2.1 then
      Except.ok ⟨some (altPath path), [(altPath path, r.1)], r.2.2⟩
    else
      Except.ok ⟨none, [], r.2.2⟩

/-! ## DOCX adapter (`process_docx`) -/

/-- An inline shape of the document: reading the `embed` relationship id
    from the drawing XML (a chain of attribute accesses that can raise),
    and the `descr` attribute of its `docPr` element. -/
structure InlineShape where
  embed : Except String String
  descr : String

/-- A DOCX document: its inline shapes and the `related_parts` mapping
    from relationship id to the image part's bytes. -/
structure DocxDoc where
  shapes : List InlineShape
  relatedParts : List (String × List Nat)

/-- The body of the per-inline-shape loop: resolve the embed id, look it
    up in `related_parts` (`KeyError` when absent), caption the bytes and
    set `descr`; any exception is caught and the shape is left
    unchanged. -/
def stepInlineShape (cap : List Nat → String)
    (parts : List (String × List Nat)) (s : InlineShape) :
    InlineShape × Bool × List (List Nat) :=
  match s.embed with
  | Except.error _ => (s, false, [])
  | Except.ok rid =>
    match parts.lookup rid with
    | none => (s, false, [])
    | some bytes => ({ s with descr := cap bytes }, true, [bytes])

/-- The loop over `doc.inline_shapes`. -/
def processInlineShapes (cap : List Nat → String)
    (parts : List (String × List Nat)) :
    List InlineShape → List InlineShape × Bool × List (List Nat)
  | [] => ([], false, [])
  | s :: rest =>
    let r := stepInlineShape cap parts s
    let t := processInlineShapes cap parts rest
    (r.1 :: t.1, r.2.1 || t.2.1, r.2.2 ++ t.2.2)

/-- Embeds `process_docx(file_path)`: open the document (may raise, uncaught),
    traverse the inline shapes, and save/return with the `_alt` suffix
    exactly when something was updated. -/
def process_docx (cap : List Nat → String)
    (openDocx : String → Except String DocxDoc) (path : String) :
    Except String (AdapterOut DocxDoc) :=
  match openDocx path with
  | Except.error e => Except.error e
  | Except.ok doc =>
    let r := processInlineShapes cap doc.relatedParts doc.shapes
    if r.2.1 then
      Except.ok ⟨some (altPath path),
                 [(altPath path, DocxDoc.mk r.1 doc.relatedParts)], r.2.2⟩
    else
      Except.ok ⟨none, [], r.2.2⟩

/-! ## PDF adapter (`process_pdf`) -/

/-- A content block of a PDF page, as returned by
    `page.get_text("dict")["blocks"]`: its `type` (1 for image blocks),
    the optional `width`/`height`/`xres`/`yres` entries read with
    `b.get(key, 0)`, the image bytes `b["image"]` (whose access can
    raise), and the bounding box `b["bbox"]`. -/
structure PdfBlock where
  btype : Nat
  width : Option Int
  height : Option Int
  xres : Option Int
  yres : Option Int
  image : Except String (List Nat)
  bbox : List Rat

/-- A PDF page: its content blocks and the text boxes inserted into it
    by `insert_htmlbox` (bounding box and HTML payload). -/
structure PdfPage where
  blocks : List PdfBlock
  insertedBoxes : List (List Rat × String)

/-- A PDF document: its pages. -/
abbrev PdfDoc : Type := List PdfPage

/-- The body of the per-block loop: non-image blocks are ignored; image
    blocks below the size threshold (width or height under 20) or the
    resolution threshold (xres or yres under 36, missing entries reading
    as 0) are skipped with `continue`; otherwise the image bytes are
    captioned and a text box `<p>...</p>` is inserted at the block's
    bounding box.  An exception while reading `b["image"]` is caught. -/
def stepBlock (cap : List Nat → String) (b : PdfBlock) :
    Option (List Rat × String) × Bool × List (List Nat) :=
  if b.btype = 1 then
    let width := b.width.getD 0
    let height := b.height.getD 0
    let xres := b.xres.getD 0
    let yres := b.yres.getD 0
    if width < 20 ∨ height < 20 then (none, false, [])
    else if xres < 36 ∨ yres < 36 then (none, false, [])
    else
      match b.image with
      | Except.error _ => (none, false, [])
      | Except.ok bytes =>
        (some (b.bbox, "<p>" ++ cap bytes ++ "</p>"), true, [bytes])
  else (none, false, [])

/-- The loop over the blocks of one page, appending each inserted box. -/
def processBlocks (cap : List Nat → String) :
    List PdfBlock → List (List Rat × String) × Bool × List (List Nat)
  | [] => ([], false, [])
  | b :: rest =>
    let r := stepBlock cap b
    let t := processBlocks cap rest
    ((match r.1 with
      | some box => box :: t.1
      | none => t.1), r.2.1 || t.2.1, r.2.2 ++ t.2.2)

/-- Processing one page: its blocks are unchanged and the generated
    boxes are inserted into the page. -/
def stepPage (cap : List Nat → String) (pg : PdfPage) :
    PdfPage × Bool × List (List Nat) :=
  let r := processBlocks cap pg.blocks
  (PdfPage.mk pg.blocks (pg.insertedBoxes ++ r.1), r.2.1, r.2.2)

/-- The loop over the pages of the document. -/
def processPages (cap : List Nat → String) :
    PdfDoc → PdfDoc × Bool × List (List Nat)
  | [] => ([], false, [])
  | pg :: rest =>
    let r := stepPage cap pg
    let t := processPages cap rest
    (r.1 :: t.1, r.2.1 || t.2.1, r.2.2 ++ t.2.2)

/-- Embeds `process_pdf(file_path)`: open the document (may raise, uncaught),
    traverse every block of every page, and save/return with the `_alt`
    suffix exactly when something was updated. -/
def process_pdf (cap : List Nat → String)
    (openPdf : String → Except String PdfDoc) (path : String) :
    Except String (AdapterOut PdfDoc) :=
  match openPdf path with
  | Except.error e => Except.error e
  | Except.ok doc =>
    let r := processPages cap doc
    if r.2.1 then
      Except.ok ⟨some (altPath path), [(altPath path, r.1)], r.2.2⟩
    else
      Except.ok ⟨none, [], r.2.2⟩

/-! ## Batch driver (`process_file`, `process_folder`) -/

/-- The world the batch driver runs against: the captioning client (as an
    abstract function of the image bytes) and, for each format, the
    result of opening a given path. -/
structure World where
  cap : List Nat → String
  openPptx : String → Except String Pptx
  openDocx : String → Except String DocxDoc
  openPdf : String → Except String PdfDoc

/-- A document written by `save`, tagged with its format. -/
inductive SavedDoc where
  | pptxDoc (d : Pptx)
  | docxDoc (d : DocxDoc)
  | pdfDoc (d : PdfDoc)

/-- What one `process_file` call produces: the returned path, the files
    written, the captioning calls made, and the warnings logged. -/
structure FileOut where
  result : Option String
  writes : List (String × SavedDoc)
  calls : List (List Nat)
  warnings : List String

/-- The list `SUPPORTED_EXTENSIONS`. -/
def SUPPORTED_EXTENSIONS : List String := [".pptx", ".docx", ".pdf"]

/-- Embeds `process_file(file_path)`: dispatch on the lowercased extension to
    exactly one adapter; an unsupported extension logs a warning and
    returns `None`.  Exceptions raised by an adapter are not caught. -/
def process_file (w : World) (path : String) : Except String FileOut :=
  let ext := extLower path
  if ext = ".pptx" then
    (process_pptx w.cap w.openPptx path).map fun o =>
      ⟨o.result, o.writes.map (fun x => (x.1, SavedDoc.pptxDoc x.2)), o.calls, []⟩
  else if ext = ".docx" then
    (process_docx w.cap w.openDocx path).map fun o =>
      ⟨o.result, o.writes.map (fun x => (x.1, SavedDoc.docxDoc x.2)), o.calls, []⟩
  else if ext = ".pdf" then
    (process_pdf w.cap w.openPdf path).map fun o =>
      ⟨o.result, o.writes.map (fun x => (x.1, SavedDoc.pdfDoc x.2)), o.calls, []⟩
  else
    Except.ok ⟨none, [], [], ["Unsupported file type: " ++ path]⟩

/-- The files discovered by the glob loop of `process_folder`, in
    iteration order: for each supported extension in order, the paths the
    recursive glob oracle returns for the folder and that extension. -/
def discoveredFiles (g : String → String → List String) (folder : String) :
    List String :=
  SUPPORTED_EXTENSIONS.flatMap (fun ext => g folder ext)

/-- The inner loop of `process_folder` over the discovered files: returns
    the accumulated output paths, the trace of files whose processing was
    attempted, and the uncaught exception that aborted the loop, if any.
    An exception from `process_file` stops the iteration at once. -/
def runFiles (w : World) : List String → List String × List String × Option String
  | [] => ([], [], none)
  | f :: fs =>
    match process_file w f with
    | Except.error e => ([], [f], some e)
    | Except.ok out =>
      let t := runFiles w fs
      ((match out.result with
        | some o => o :: t.1
        | none => t.1), f :: t.2.1, t.2.2)

/-- Embeds `process_folder(folder_path)`: process every discovered file and
    accumulate the output paths; an exception raised by `process_file`
    propagates out of the folder loop. -/
def process_folder (w : World) (g : String → String → List String)
    (folder : String) : Except String (List String) :=
  let r := runFiles w (discoveredFiles g folder)
  match r.2.2 with
  | some e => Except.error e
  | none => Except.ok r.1

/-! ## Eligibility predicates

These characterise, per format, when the loop body updates a shape or
block; they are used to state that the `updated` flag — and hence the
save/return behaviour — is exactly "at least one image was updated". -/

/-- A PPTX shape is updated exactly when it is a picture whose blob
    reads successfully. -/
def shapeEligible (s : PShape) : Bool :=
  (s.shapeType == MSO_PICTURE) &&
    (match s.blob with
     | Except.ok _ => true
     | Except.error _ => false)

/-- A DOCX inline shape is updated exactly when its embed id resolves
    and the id is present in `related_parts`. -/
def inlineEligible (parts : List (String × List Nat)) (s : InlineShape) : Bool :=
  match s.embed with
  | Except.error _ => false
  | Except.ok rid => (parts.lookup rid).isSome

/-- A PDF block is captioned exactly when it is an image block meeting
    both thresholds whose image bytes read successfully. -/
def blockEligible (b : PdfBlock) : Bool :=
  (b.btype == 1) &&
    !(b.width.getD 0 < 20 || b.height.getD 0 < 20) &&
    !(b.xres.getD 0 < 36 || b.yres.getD 0 < 36) &&
    (match b.image with
     | Except.ok _ => true
     | Except.error _ => false)

/-- The proposition that at least one image gets updated in a presentation. -/
def pptxUpdatable (slides : Pptx) : Prop :=
  ∃ sl ∈ slides, ∃ s ∈ sl, shapeEligible s = true

/-- The proposition that at least one image gets updated in a DOCX document. -/
def docxUpdatable (doc : DocxDoc) : Prop :=
  ∃ s ∈ doc.shapes, inlineEligible doc.relatedParts s = true

/-- The proposition that at least one image gets updated in a PDF document. -/
def pdfUpdatable (doc : PdfDoc) : Prop :=
  ∃ pg ∈ doc, ∃ b ∈ pg.blocks, blockEligible b = true

/-! ## Spec-side definitions for the wire protocol -/

/-- Modelled from the spec: the request shape of §6, a JSON object
    `{model, messages:[{role:"user", content:[{type:"image_url",
    image_url:{url:"data:image/png;base64,<...>"}}, {type:"text",
    text:<fixed instruction>}]}], temperature, max_tokens,
    stream:false}`, where the base64 part of the url encodes the image
    bytes and the temperature, max_tokens and instruction values are
    left open. -/
def specRequestShape (model : String) (bytes : List Nat) (j : Json) : Prop :=
  ∃ (temp maxTok : Rat) (instr : String),
    j = Json.obj
      [("model", Json.str model),
       ("messages", Json.arr
         [Json.obj
           [("role", Json.str "user"),
            ("content", Json.arr
              [Json.obj
                [("type", Json.str "image_url"),
                 ("image_url", Json.obj
                   [("url", Json.str
                      ("data:image/png;base64," ++ String.mk (base64Encode bytes)))])],
               Json.obj
                [("type", Json.str "text"),
                 ("text", Json.str instr)]])]]),
       ("temperature", Json.num temp),
       ("max_tokens", Json.num maxTok),
       ("stream", Json.bool false)]

/-- Modelled from the spec: the response shape of §6,
    `{choices:[{message:{content: <string>}}]}`. -/
def specSuccessResponse (s : String) : Json :=
  Json.obj
    [("choices", Json.arr
      [Json.obj [("message", Json.obj [("content", Json.str s)])]])]

/-- A world in which opening `a.pptx` raises while `b.pptx` opens fine;
    used to exercise the folder loop's behaviour on a document-level
    exception. -/
def c1World : World :=
  ⟨fun _ => "cap",
   fun p => if p = "a.pptx" then Except.error "open failed" else Except.ok [],
   fun _ => Except.error "unused",
   fun _ => Except.error "unused"⟩

/-- A glob oracle discovering exactly `a.pptx` and `b.pptx`. -/
def c1Glob : String → String → List String :=
  fun _ ext => if ext = ".pptx" then ["a.pptx", "b.pptx"] else []

/-! ## Helper lemmas on `dropWhile` and Python `strip` -/

theorem head?_dropWhile_false (p : Char → Bool) (l : List Char) :
    ∀ a, (l.dropWhile p).head? = some a → p a = false := by
  induction l with
  | nil => intro a h; simp [List.dropWhile] at h
  | cons x xs ih =>
    intro a h
    rw [List.dropWhile_cons] at h
    by_cases hx : p x
    · rw [if_pos hx] at h
      exact ih a h
    · rw [if_neg hx] at h
      simp only [List.head?_cons, Option.some.injEq] at h
      subst h
      exact Bool.eq_false_iff.mpr hx

theorem dropWhile_eq_self_of_head (p : Char → Bool) (l : List Char)
    (h : ∀ a, l.head? = some a → p a = false) : l.dropWhile p = l := by
  cases l with
  | nil => rfl
  | cons x xs =>
    have hx := h x rfl
    rw [List.dropWhile_cons, if_neg (by simp [hx])]

theorem getLast?_dropWhile (p : Char → Bool) (l : List Char)
    (h : l.dropWhile p ≠ []) : (l.dropWhile p).getLast? = l.getLast? := by
  conv_rhs => rw [← List.takeWhile_append_dropWhile p l]
  exact (List.getLast?_append_of_ne_nil _ h).symm

theorem pyStripChars_head (cs : List Char) :
    ∀ a, (pyStripChars cs).head? = some a → isPySpace a = false := by
  intro a h
  unfold pyStripChars at h
  rw [List.head?_reverse] at h
  have hne : (cs.dropWhile isPySpace).reverse.dropWhile isPySpace ≠ [] := by
    intro hnil
    rw [hnil] at h
    simp at h
  rw [getLast?_dropWhile _ _ hne, List.getLast?_reverse] at h
  exact head?_dropWhile_false isPySpace cs a h

theorem pyStripChars_getLast (cs : List Char) :
    ∀ a, (pyStripChars cs).getLast? = some a → isPySpace a = false := by
  intro a h
  unfold pyStripChars at h
  rw [List.getLast?_reverse] at h
  exact head?_dropWhile_false isPySpace _ a h

theorem pyStripChars_idem (cs : List Char) :
    pyStripChars (pyStripChars cs) = pyStripChars cs := by
  have h1 : (pyStripChars cs).dropWhile isPySpace = pyStripChars cs :=
    dropWhile_eq_self_of_head _ _ (pyStripChars_head cs)
  have h2 : (pyStripChars cs).reverse.dropWhile isPySpace = (pyStripChars cs).reverse := by
    apply dropWhile_eq_self_of_head
    intro a ha
    rw [List.head?_reverse] at ha
    exact pyStripChars_getLast cs a ha
  show (((pyStripChars cs).dropWhile isPySpace).reverse.dropWhile isPySpace).reverse
      = pyStripChars cs
  rw [h1, h2, List.reverse_reverse]

theorem pyStripChars_decomp (cs : List Char) :
    ∃ u v, cs = u ++ pyStripChars cs ++ v ∧
      (∀ c ∈ u, isPySpace c = true) ∧ (∀ c ∈ v, isPySpace c = true) := by
  refine ⟨cs.takeWhile isPySpace,
          ((cs.dropWhile isPySpace).reverse.takeWhile isPySpace).reverse, ?_, ?_, ?_⟩
  · unfold pyStripChars
    have h := List.takeWhile_append_dropWhile isPySpace (cs.dropWhile isPySpace).reverse
    have h2 := congrArg List.reverse h
    rw [List.reverse_append, List.reverse_reverse] at h2
    conv_lhs => rw [← List.takeWhile_append_dropWhile isPySpace cs, ← h2]
    rw [List.append_assoc]
  · intro c hc
    exact List.mem_takeWhile_imp hc
  · intro c hc
    rw [List.mem_reverse] at hc
    exact List.mem_takeWhile_imp hc

/-! ## Helper lemmas on `splitext` and the `_alt` output path -/

theorem splitextChars_append (l : List Char) :
    (splitextChars l).1 ++ (splitextChars l).2 = l := by
  unfold splitextChars
  cases lastIdx l '.' with
  | none => simp
  | some d =>
    dsimp only
    split
    · exact List.take_append_drop d l
    · simp

theorem altPath_data (p : String) :
    (altPath p).data =
      (splitextChars p.toList).1 ++ "_alt".toList ++ (splitextChars p.toList).2 := rfl

theorem altPath_length (p : String) :
    (altPath p).data.length = p.data.length + 4 := by
  have ht : p.toList = p.data := rfl
  have h := congrArg List.length (splitextChars_append p.toList)
  rw [List.length_append, ht] at h
  rw [altPath_data, List.length_append, List.length_append, ht]
  have h4 : "_alt".toList.length = 4 := rfl
  rw [h4]
  omega

theorem altPath_ne (p : String) : altPath p ≠ p := by
  intro h
  have h1 := congrArg String.data h
  have h2 := congrArg List.length h1
  rw [altPath_length] at h2
  omega

/-! ## Helper lemmas on the PPTX traversal -/

theorem stepShape_fst_not_picture (cap : List Nat → String) (s : PShape)
    (h : s.shapeType ≠ MSO_PICTURE) : (stepShape cap s).1 = s := by
  simp [stepShape, h]

theorem stepShape_updated (cap : List Nat → String) (s : PShape) :
    (stepShape cap s).2.1 = shapeEligible s := by
  unfold stepShape shapeEligible
  by_cases h : s.shapeType = MSO_PICTURE
  · cases hb : s.blob <;> simp [h, hb]
  · simp [h]

theorem stepShape_calls_length (cap : List Nat → String) (s : PShape) :
    (stepShape cap s).2.2.length = if shapeEligible s then 1 else 0 := by
  unfold stepShape shapeEligible
  by_cases h : s.shapeType = MSO_PICTURE
  · cases hb : s.blob <;> simp [h, hb]
  · simp [h]

theorem processShapes_fst (cap : List Nat → String) (l : List PShape) :
    (processShapes cap l).1 = l.map (fun s => (stepShape cap s).1) := by
  induction l with
  | nil => rfl
  | cons s rest ih => simp [processShapes, ih]

theorem processShapes_updated (cap : List Nat → String) (l : List PShape) :
    (processShapes cap l).2.1 = l.any shapeEligible := by
  induction l with
  | nil => rfl
  | cons s rest ih => simp [processShapes, stepShape_updated, ih]

theorem processShapes_calls_length (cap : List Nat → String) (l : List PShape) :
    (processShapes cap l).2.2.length = l.countP shapeEligible := by
  induction l with
  | nil => rfl
  | cons s rest ih =>
    show ((stepShape cap s).2.2 ++ (processShapes cap rest).2.2).length = _
    rw [List.length_append, stepShape_calls_length, ih, List.countP_cons]
    by_cases h : shapeEligible s
    · simp [h]
      omega
    · simp [h]

theorem processSlides_fst (cap : List Nat → String) (L : Pptx) :
    (processSlides cap L).1 = L.map (fun sl => (processShapes cap sl).1) := by
  induction L with
  | nil => rfl
  | cons sl rest ih => simp [processSlides, ih]

theorem processSlides_updated (cap : List Nat → String) (L : Pptx) :
    (processSlides cap L).2.1 = L.any (fun sl => sl.any shapeEligible) := by
  induction L with
  | nil => rfl
  | cons sl rest ih => simp [processSlides, processShapes_updated, ih]

theorem processSlides_calls_length (cap : List Nat → String) (L : Pptx) :
    (processSlides cap L).2.2.length = (L.map (fun sl => sl.countP shapeEligible)).sum := by
  induction L with
  | nil => rfl
  | cons sl rest ih =>
    show ((processShapes cap sl).2.2 ++ (processSlides cap rest).2.2).length = _
    rw [List.length_append, processShapes_calls_length, ih, List.map_cons, List.sum_cons]

theorem processSlides_updated_iff (cap : List Nat → String) (L : Pptx) :
    (processSlides cap L).2.1 = true ↔ pptxUpdatable L := by
  rw [processSlides_updated]
  simp [pptxUpdatable, List.any_eq_true]

/-! ## Helper lemmas on the DOCX traversal -/

theorem stepInlineShape_updated (cap : List Nat → String)
    (parts : List (String × List Nat)) (s : InlineShape) :
    (stepInlineShape cap parts s).2.1 = inlineEligible parts s := by
  unfold stepInlineShape inlineEligible
  cases he : s.embed with
  | error e => rfl
  | ok rid => cases hl : parts.lookup rid <;> simp [hl]

theorem processInlineShapes_updated (cap : List Nat → String)
    (parts : List (String × List Nat)) (l : List InlineShape) :
    (processInlineShapes cap parts l).2.1 = l.any (inlineEligible parts) := by
  induction l with
  | nil => rfl
  | cons s rest ih => simp [processInlineShapes, stepInlineShape_updated, ih]

theorem processInlineShapes_updated_iff (cap : List Nat → String) (doc : DocxDoc) :
    (processInlineShapes cap doc.relatedParts doc.shapes).2.1 = true ↔ docxUpdatable doc := by
  rw [processInlineShapes_updated]
  simp [docxUpdatable, List.any_eq_true]

/-! ## Helper lemmas on the PDF traversal -/

theorem stepBlock_updated (cap : List Nat → String) (b : PdfBlock) :
    (stepBlock cap b).2.1 = blockEligible b := by
  unfold stepBlock blockEligible
  by_cases h1 : b.btype = 1
  · by_cases h2 : b.width.getD 0 < 20 ∨ b.height.getD 0 < 20
    · simp [h1, h2]
      omega
    · by_cases h3 : b.xres.getD 0 < 36 ∨ b.yres.getD 0 < 36
      · simp [h1, h2, h3]
        omega
      · cases hb : b.image <;> simp [h1, h2, h3, hb]
        all_goals omega
  · simp [h1]

theorem processBlocks_updated (cap : List Nat → String) (l : List PdfBlock) :
    (processBlocks cap l).2.1 = l.any blockEligible := by
  induction l with
  | nil => rfl
  | cons b rest ih =>
    show ((stepBlock cap b).2.1 || (processBlocks cap rest).2.1) = _
    rw [stepBlock_updated, ih, List.any_cons]

theorem processPages_updated (cap : List Nat → String) (L : PdfDoc) :
    (processPages cap L).2.1 = L.any (fun pg => pg.blocks.any blockEligible) := by
  induction L with
  | nil => rfl
  | cons pg rest ih =>
    show ((processBlocks cap pg.blocks).2.1 || (processPages cap rest).2.1) = _
    rw [processBlocks_updated, ih, List.any_cons]

theorem processPages_updated_iff (cap : List Nat → String) (L : PdfDoc) :
    (processPages cap L).2.1 = true ↔ pdfUpdatable L := by
  rw [processPages_updated]
  simp [pdfUpdatable, List.any_eq_true]

/-! ## Claim theorems -/

/-- C2: a PDF image block whose four geometry entries are present and
    whose image bytes read successfully is captioned and gets a text box
    inserted if and only if width ≥ 20, height ≥ 20, xres ≥ 36 and
    yres ≥ 36; in particular width 19 / height 40, or resolution 35×40,
    is skipped with no captioning call and no insertion, while exactly
    20×20 at 36×36 dpi is processed — both boundaries inclusive. -/
theorem c2_pdf_thresholds (cap : List Nat → String) (b : PdfBlock)
    (w h xr yr : Int) (bytes : List Nat)
    (htype : b.btype = 1) (hw : b.width = some w) (hh : b.height = some h)
    (hx : b.xres = some xr) (hy : b.yres = some yr)
    (himg : b.image = Except.ok bytes) :
    (stepBlock cap b = (some (b.bbox, "<p>" ++ cap bytes ++ "</p>"), true, [bytes])
        ↔ (20 ≤ w ∧ 20 ≤ h ∧ 36 ≤ xr ∧ 36 ≤ yr))
    ∧ (stepBlock cap b = (none, false, [])
        ↔ ¬(20 ≤ w ∧ 20 ≤ h ∧ 36 ≤ xr ∧ 36 ≤ yr))
    ∧ (w = 19 ∧ h = 40 → stepBlock cap b = (none, false, []))
    ∧ (xr = 35 ∧ yr = 40 → stepBlock cap b = (none, false, []))
    ∧ (w = 20 ∧ h = 20 ∧ xr = 36 ∧ yr = 36 →
        stepBlock cap b = (some (b.bbox, "<p>" ++ cap bytes ++ "</p>"), true, [bytes])) := by
  have e : stepBlock cap b =
      if w < 20 ∨ h < 20 then (none, false, [])
      else if xr < 36 ∨ yr < 36 then (none, false, [])
      else (some (b.bbox, "<p>" ++ cap bytes ++ "</p>"), true, [bytes]) := by
    unfold stepBlock
    rw [if_pos htype, hw, hh, hx, hy, himg]
    simp only [Option.getD_some]
  rw [e]
  refine ⟨?_, ?_, ?_, ?_, ?_⟩
  · split_ifs with h1 h2 <;> simp <;> omega
  · split_ifs with h1 h2 <;> simp <;> omega
  · rintro ⟨rfl, rfl⟩
    split_ifs with h1 h2 <;> first | rfl | omega
  · rintro ⟨rfl, rfl⟩
    split_ifs with h1 h2 <;> first | rfl | omega
  · rintro ⟨rfl, rfl, rfl, rfl⟩
    split_ifs with h1 h2 <;> first | rfl | omega

/-- C2 witness: a block at exactly width 20, height 20 and 36×36 dpi is
    captioned and a text box is inserted. -/
theorem c2_witness :
    stepBlock (fun _ => "x")
      ⟨1, some 20, some 20, some 36, some 36, Except.ok [7], [0, 0, 1, 1]⟩
      = (some (([0, 0, 1, 1] : List Rat), "<p>x</p>"), true, [[7]]) :=
  (c2_pdf_thresholds (fun _ => "x") _ 20 20 36 36 [7]
    rfl rfl rfl rfl rfl rfl).2.2.2.2 ⟨rfl, rfl, rfl, rfl⟩

/-- C9: a PDF image block lacking any of the `width`, `height`, `xres`
    or `yres` keys reads that value as 0 and is therefore always
    skipped: no captioning call, no insertion. -/
theorem c9_missing_keys_skip (cap : List Nat → String) (b : PdfBlock)
    (htype : b.btype = 1)
    (hmiss : b.width = none ∨ b.height = none ∨ b.xres = none ∨ b.yres = none) :
    stepBlock cap b = (none, false, []) := by
  unfold stepBlock
  rw [if_pos htype]
  rcases hmiss with hm | hm | hm | hm
  · rw [hm]
    simp only [Option.getD_none]
    rw [if_pos (Or.inl (by norm_num : (0:Int) < 20))]
  · rw [hm]
    simp only [Option.getD_none]
    rw [if_pos (Or.inr (by norm_num : (0:Int) < 20))]
  · rw [hm]
    simp only [Option.getD_none]
    split_ifs with h1 h2
    · rfl
    · rfl
    · exact absurd (Or.inl (by norm_num)) h2
  · rw [hm]
    simp only [Option.getD_none]
    split_ifs with h1 h2
    · rfl
    · rfl
    · exact absurd (Or.inr (by norm_num)) h2

/-- C9 witness: a large high-resolution block whose dictionary lacks the
    `width` key is skipped. -/
theorem c9_witness :
    stepBlock (fun _ => "x")
      ⟨1, none, some 100, some 72, some 72, Except.ok [1], []⟩ = (none, false, []) :=
  c9_missing_keys_skip (fun _ => "x") _ rfl (Or.inl rfl)

/-- C10: on a successful captioning response whose
    `choices[0].message.content` is the string `s`, `generate_alt_text`
    returns `s` stripped of leading and trailing whitespace: the result
    is `s` minus whitespace-only margins, and stripping it again changes
    nothing. -/
theorem c10_strips_content (post : Json → HttpResult) (model : String)
    (bytes : List Nat) (status : Nat) (data : Json) (s : String)
    (hpost : post (buildPayload model bytes) = HttpResult.got status (Except.ok data))
    (hst : status < 400)
    (hcontent : contentField data = Except.ok (Json.str s)) :
    generate_alt_text post model bytes = pyStrip s
    ∧ (∃ u v, s.toList = u ++ (pyStrip s).toList ++ v ∧
        (∀ c ∈ u, isPySpace c = true) ∧ (∀ c ∈ v, isPySpace c = true))
    ∧ pyStripChars ((pyStrip s).toList) = (pyStrip s).toList := by
  have he : extractContent data = Except.ok (pyStrip s) := by
    unfold extractContent
    rw [hcontent]
  refine ⟨?_, pyStripChars_decomp s.toList, pyStripChars_idem s.toList⟩
  unfold generate_alt_text
  simp only [hpost, he]
  rw [if_neg (by omega : ¬ 400 ≤ status)]

/-- C10 witness: a concrete successful response with content
    `" hi "` yields exactly `"hi"`. -/
theorem c10_witness :
    generate_alt_text
      (fun _ => HttpResult.got 200 (Except.ok (specSuccessResponse " hi ")))
      "m" [1] = pyStrip " hi "
    ∧ pyStrip " hi " = "hi" :=
  ⟨(c10_strips_content
      (fun _ => HttpResult.got 200 (Except.ok (specSuccessResponse " hi ")))
      "m" [1] 200 (specSuccessResponse " hi ") " hi "
      rfl (by omega) rfl).1,
   by decide⟩

/-- C7: the request built by `generate_alt_text` has exactly the
    documented JSON shape — `model`, one user message whose content is an
    `image_url` part carrying `data:image/png;base64,` followed by the
    base64 encoding of the image bytes and a `text` part with the fixed
    instruction, then `temperature`, `max_tokens` and `stream:false` —
    and on a success response the caption is extracted from
    `choices[0].message.content`. -/
theorem c7_wire_protocol (model : String) (bytes : List Nat) :
    specRequestShape model bytes (buildPayload model bytes)
    ∧ (∀ s, extractContent (specSuccessResponse s) = Except.ok (pyStrip s))
    ∧ (∀ (post : Json → HttpResult) (s : String) (status : Nat),
        status < 400 →
        post (buildPayload model bytes) =
          HttpResult.got status (Except.ok (specSuccessResponse s)) →
        generate_alt_text post model bytes = pyStrip s) := by
  refine ⟨⟨7 / 10, 4096, instructionText, rfl⟩, fun s => rfl, ?_⟩
  intro post s status hst hpost
  have he : extractContent (specSuccessResponse s) = Except.ok (pyStrip s) := rfl
  unfold generate_alt_text
  simp only [hpost, he]
  rw [if_neg (by omega : ¬ 400 ≤ status)]

/-- C7 witness: the shape holds of the concrete payload for bytes
    `[1, 2, 3]`, and a concrete success response is extracted from
    `choices[0].message.content`. -/
theorem c7_witness :
    specRequestShape "m" [1, 2, 3] (buildPayload "m" [1, 2, 3])
    ∧ extractContent (specSuccessResponse "a cat") = Except.ok (pyStrip "a cat")
    ∧ generate_alt_text
        (fun _ => HttpResult.got 200 (Except.ok (specSuccessResponse "a cat")))
        "m" [1, 2, 3] = pyStrip "a cat" :=
  ⟨(c7_wire_protocol "m" [1, 2, 3]).1,
   (c7_wire_protocol "m" [1, 2, 3]).2.1 "a cat",
   (c7_wire_protocol "m" [1, 2, 3]).2.2
     (fun _ => HttpResult.got 200 (Except.ok (specSuccessResponse "a cat")))
     "a cat" 200 (by omega) rfl⟩

/-- C3: whenever the captioning call fails (transport error, non-success
    status, unparsable body, or missing/malformed response fields),
    `generate_alt_text` returns the fixed sentinel placeholder, the PPTX
    adapter writes exactly that string into the picture's description
    field, and the document still counts as updated: an `_alt` output
    file is produced and its path returned. -/
theorem c3_failure_sentinel (post : Json → HttpResult) (model : String)
    (bytes : List Nat)
    (hfail : httpFailed (post (buildPayload model bytes)) = true) :
    generate_alt_text post model bytes = sentinelAltText
    ∧ ∀ (path d0 : String),
        process_pptx (generate_alt_text post model)
          (fun _ => Except.ok [[⟨MSO_PICTURE, Except.ok bytes, d0⟩]]) path =
        Except.ok ⟨some (altPath path),
                   [(altPath path, [[⟨MSO_PICTURE, Except.ok bytes, sentinelAltText⟩]])],
                   [bytes]⟩ := by
  have hgen : generate_alt_text post model bytes = sentinelAltText := by
    unfold generate_alt_text
    unfold httpFailed at hfail
    cases hp : post (buildPayload model bytes) with
    | raised m => rfl
    | got status body =>
      rw [hp] at hfail
      dsimp only at hfail ⊢
      by_cases hs : 400 ≤ status
      · rw [if_pos hs]
      · rw [if_neg hs]
        rw [if_neg hs] at hfail
        cases body with
        | error e => rfl
        | ok data =>
          dsimp only at hfail ⊢
          cases hex : extractContent data with
          | error e => rfl
          | ok s => simp [hex] at hfail
  refine ⟨hgen, ?_⟩
  intro path d0
  unfold process_pptx
  simp [processSlides, processShapes, stepShape, MSO_PICTURE, hgen]

/-- C3 witness: with a transport-error oracle, the caption is the
    sentinel and the one-picture presentation is saved with the sentinel
    as its description. -/
theorem c3_witness :
    httpFailed ((fun _ => HttpResult.raised "conn") (buildPayload "m" [9])) = true
    ∧ generate_alt_text (fun _ => HttpResult.raised "conn") "m" [9] = sentinelAltText
    ∧ process_pptx (generate_alt_text (fun _ => HttpResult.raised "conn") "m")
        (fun _ => Except.ok [[⟨MSO_PICTURE, Except.ok [9], ""⟩]]) "x.pptx" =
      Except.ok ⟨some (altPath "x.pptx"),
                 [(altPath "x.pptx", [[⟨MSO_PICTURE, Except.ok [9], sentinelAltText⟩]])],
                 [[9]]⟩ :=
  ⟨rfl,
   (c3_failure_sentinel (fun _ => HttpResult.raised "conn") "m" [9] rfl).1,
   (c3_failure_sentinel (fun _ => HttpResult.raised "conn") "m" [9] rfl).2 "x.pptx" ""⟩

/-- Pointwise-equal predicates count the same on a list. -/
theorem countP_congr_mem {α : Type} (p q : α → Bool) (l : List α)
    (h : ∀ a ∈ l, p a = q a) : l.countP p = l.countP q := by
  induction l with
  | nil => rfl
  | cons a t ih =>
    rw [List.countP_cons, List.countP_cons, h a (by simp),
        ih (fun x hx => h x (by simp [hx]))]

/-- C4: each of the three adapters, on a file that opens, returns the
    `_alt`-suffixed path and writes exactly one file at that path when at
    least one image was updated, and returns nothing and writes nothing
    when zero images were updated; in either case no write targets the
    input path (the source file is untouched). -/
theorem c4_save_return_semantics :
    (∀ (cap : List Nat → String) (openF : String → Except String Pptx)
       (path : String) (slides : Pptx), openF path = Except.ok slides →
      ∃ o, process_pptx cap openF path = Except.ok o ∧
        (pptxUpdatable slides →
          o.result = some (altPath path) ∧ ∃ d, o.writes = [(altPath path, d)]) ∧
        (¬ pptxUpdatable slides → o.result = none ∧ o.writes = []) ∧
        (∀ wr ∈ o.writes, wr.1 ≠ path))
    ∧ (∀ (cap : List Nat → String) (openF : String → Except String DocxDoc)
       (path : String) (doc : DocxDoc), openF path = Except.ok doc →
      ∃ o, process_docx cap openF path = Except.ok o ∧
        (docxUpdatable doc →
          o.result = some (altPath path) ∧ ∃ d, o.writes = [(altPath path, d)]) ∧
        (¬ docxUpdatable doc → o.result = none ∧ o.writes = []) ∧
        (∀ wr ∈ o.writes, wr.1 ≠ path))
    ∧ (∀ (cap : List Nat → String) (openF : String → Except String PdfDoc)
       (path : String) (doc : PdfDoc), openF path = Except.ok doc →
      ∃ o, process_pdf cap openF path = Except.ok o ∧
        (pdfUpdatable doc →
          o.result = some (altPath path) ∧ ∃ d, o.writes = [(altPath path, d)]) ∧
        (¬ pdfUpdatable doc → o.result = none ∧ o.writes = []) ∧
        (∀ wr ∈ o.writes, wr.1 ≠ path)) := by
  refine ⟨?_, ?_, ?_⟩
  · intro cap openF path slides hopen
    have hres := processSlides_updated_iff cap slides
    unfold process_pptx
    rw [hopen]
    dsimp only
    by_cases hu : pptxUpdatable slides
    · rw [if_pos (hres.mpr hu)]
      refine ⟨_, rfl, fun _ => ⟨rfl, _, rfl⟩, fun hnu => absurd hu hnu, ?_⟩
      intro wr hwr
      rw [List.mem_singleton] at hwr
      rw [hwr]
      exact altPath_ne path
    · rw [if_neg (fun hh => hu (hres.mp hh))]
      exact ⟨_, rfl, fun hyes => absurd hyes hu, fun _ => ⟨rfl, rfl⟩, by simp⟩
  · intro cap openF path doc hopen
    have hres := processInlineShapes_updated_iff cap doc
    unfold process_docx
    rw [hopen]
    dsimp only
    by_cases hu : docxUpdatable doc
    · rw [if_pos (hres.mpr hu)]
      refine ⟨_, rfl, fun _ => ⟨rfl, _, rfl⟩, fun hnu => absurd hu hnu, ?_⟩
      intro wr hwr
      rw [List.mem_singleton] at hwr
      rw [hwr]
      exact altPath_ne path
    · rw [if_neg (fun hh => hu (hres.mp hh))]
      exact ⟨_, rfl, fun hyes => absurd hyes hu, fun _ => ⟨rfl, rfl⟩, by simp⟩
  · intro cap openF path doc hopen
    have hres := processPages_updated_iff cap doc
    unfold process_pdf
    rw [hopen]
    dsimp only
    by_cases hu : pdfUpdatable doc
    · rw [if_pos (hres.mpr hu)]
      refine ⟨_, rfl, fun _ => ⟨rfl, _, rfl⟩, fun hnu => absurd hu hnu, ?_⟩
      intro wr hwr
      rw [List.mem_singleton] at hwr
      rw [hwr]
      exact altPath_ne path
    · rw [if_neg (fun hh => hu (hres.mp hh))]
      exact ⟨_, rfl, fun hyes => absurd hyes hu, fun _ => ⟨rfl, rfl⟩, by simp⟩

/-- C4 witness: concrete empty documents of each format open fine,
    produce no output file and return nothing. -/
theorem c4_witness :
    (∃ o, process_pptx (fun _ => "t") (fun _ => Except.ok ([[]] : Pptx)) "a.pptx"
        = Except.ok o ∧
      (pptxUpdatable [[]] →
        o.result = some (altPath "a.pptx") ∧ ∃ d, o.writes = [(altPath "a.pptx", d)]) ∧
      (¬ pptxUpdatable [[]] → o.result = none ∧ o.writes = []) ∧
      (∀ wr ∈ o.writes, wr.1 ≠ "a.pptx"))
    ∧ (∃ o, process_docx (fun _ => "t") (fun _ => Except.ok (⟨[], []⟩ : DocxDoc)) "a.docx"
        = Except.ok o ∧
      (docxUpdatable ⟨[], []⟩ →
        o.result = some (altPath "a.docx") ∧ ∃ d, o.writes = [(altPath "a.docx", d)]) ∧
      (¬ docxUpdatable ⟨[], []⟩ → o.result = none ∧ o.writes = []) ∧
      (∀ wr ∈ o.writes, wr.1 ≠ "a.docx"))
    ∧ (∃ o, process_pdf (fun _ => "t") (fun _ => Except.ok ([] : PdfDoc)) "a.pdf"
        = Except.ok o ∧
      (pdfUpdatable [] →
        o.result = some (altPath "a.pdf") ∧ ∃ d, o.writes = [(altPath "a.pdf", d)]) ∧
      (¬ pdfUpdatable [] → o.result = none ∧ o.writes = []) ∧
      (∀ wr ∈ o.writes, wr.1 ≠ "a.pdf")) :=
  ⟨c4_save_return_semantics.1 (fun _ => "t") (fun _ => Except.ok [[]]) "a.pptx" [[]] rfl,
   c4_save_return_semantics.2.1 (fun _ => "t") (fun _ => Except.ok ⟨[], []⟩) "a.docx" ⟨[], []⟩ rfl,
   c4_save_return_semantics.2.2 (fun _ => "t") (fun _ => Except.ok []) "a.pdf" [] rfl⟩

/-- C5: processing a presentation whose picture blobs are all readable
    makes exactly one captioning call per picture shape, and every
    non-picture shape is carried through unchanged. -/
theorem c5_picture_calls (cap : List Nat → String)
    (openF : String → Except String Pptx) (path : String) (slides : Pptx)
    (hopen : openF path = Except.ok slides)
    (hblobs : ∀ sl ∈ slides, ∀ s ∈ sl, s.shapeType = MSO_PICTURE →
      ∃ b, s.blob = Except.ok b) :
    ∃ o, process_pptx cap openF path = Except.ok o ∧
      o.calls.length = (slides.flatten).countP (fun s => s.shapeType == MSO_PICTURE) ∧
      List.Forall₂ (List.Forall₂ (fun s t => s.shapeType ≠ MSO_PICTURE → t = s))
        slides (processSlides cap slides).1 := by
  have hcalls : (processSlides cap slides).2.2.length
      = (slides.flatten).countP (fun s => s.shapeType == MSO_PICTURE) := by
    rw [processSlides_calls_length, List.countP_flatten]
    congr 1
    apply List.map_eq_map_iff.mpr
    intro sl hsl
    apply countP_congr_mem
    intro s hs
    unfold shapeEligible
    by_cases hp : s.shapeType = MSO_PICTURE
    · obtain ⟨b, hb⟩ := hblobs sl hsl s hs hp
      simp [hp, hb]
    · simp [hp]
  have hforall : List.Forall₂ (List.Forall₂ (fun s t => s.shapeType ≠ MSO_PICTURE → t = s))
      slides (processSlides cap slides).1 := by
    rw [processSlides_fst, List.forall₂_map_right_iff, List.forall₂_same]
    intro sl hsl
    rw [processShapes_fst, List.forall₂_map_right_iff, List.forall₂_same]
    intro s hs hnp
    exact stepShape_fst_not_picture cap s hnp
  unfold process_pptx
  rw [hopen]
  dsimp only
  by_cases hu : (processSlides cap slides).2.1 = true
  · rw [if_pos hu]
    exact ⟨_, rfl, hcalls, hforall⟩
  · rw [if_neg hu]
    exact ⟨_, rfl, hcalls, hforall⟩

/-- C5 witness: a slide with one picture and one non-picture shape
    yields exactly one call and leaves the other shape unchanged. -/
theorem c5_witness :
    ∃ o, process_pptx (fun _ => "t")
        (fun _ => Except.ok [[⟨MSO_PICTURE, Except.ok [5], ""⟩, ⟨1, Except.error "e", "note"⟩]])
        "deck.pptx" = Except.ok o ∧
      o.calls.length =
        (([[⟨MSO_PICTURE, Except.ok [5], ""⟩, ⟨1, Except.error "e", "note"⟩]] : Pptx).flatten).countP
          (fun s => s.shapeType == MSO_PICTURE) ∧
      List.Forall₂ (List.Forall₂ (fun s t => s.shapeType ≠ MSO_PICTURE → t = s))
        ([[⟨MSO_PICTURE, Except.ok [5], ""⟩, ⟨1, Except.error "e", "note"⟩]] : Pptx)
        (processSlides (fun _ => "t")
          [[⟨MSO_PICTURE, Except.ok [5], ""⟩, ⟨1, Except.error "e", "note"⟩]]).1 :=
  c5_picture_calls (fun _ => "t") _ "deck.pptx"
    [[⟨MSO_PICTURE, Except.ok [5], ""⟩, ⟨1, Except.error "e", "note"⟩]] rfl
    (by
      intro sl hsl s hs hp
      rw [List.mem_singleton] at hsl
      subst hsl
      simp only [List.mem_cons, List.mem_singleton, List.not_mem_nil, or_false] at hs
      rcases hs with rfl | rfl
      · exact ⟨[5], rfl⟩
      · exact absurd hp (by decide))

/-- C8: the adapter is a pure function of the opened document and the
    captioning responses — two runs over the same document contents, from
    any two paths, perform the same captioning calls, save the same
    updated document, and each return their own `base + "_alt" + ext`
    path; nothing in the run inspects the stem, so a path already
    carrying the `_alt` suffix is reprocessed like any other file. -/
theorem c8_rerun_no_guard (cap : List Nat → String)
    (openF : String → Except String Pptx) (p q : String) (slides : Pptx)
    (hp : openF p = Except.ok slides) (hq : openF q = Except.ok slides) :
    ∃ o₁ o₂, process_pptx cap openF p = Except.ok o₁ ∧
      process_pptx cap openF q = Except.ok o₂ ∧
      o₁.calls = o₂.calls ∧
      o₁.writes.map Prod.snd = o₂.writes.map Prod.snd ∧
      (o₁.result.isSome ↔ o₂.result.isSome) ∧
      (∀ r, o₁.result = some r → r = altPath p) ∧
      (∀ r, o₂.result = some r → r = altPath q) := by
  unfold process_pptx
  rw [hp, hq]
  dsimp only
  by_cases hu : (processSlides cap slides).2.1 = true
  · rw [if_pos hu, if_pos hu]
    exact ⟨_, _, rfl, rfl, rfl, rfl, Iff.rfl,
      fun r hr => (Option.some.inj hr).symm,
      fun r hr => (Option.some.inj hr).symm⟩
  · rw [if_neg hu, if_neg hu]
    exact ⟨_, _, rfl, rfl, rfl, rfl, Iff.rfl,
      fun r hr => Option.noConfusion hr,
      fun r hr => Option.noConfusion hr⟩

/-- C8 witness: re-running on the already-suffixed `a_alt.pptx` with the
    same document and captions behaves identically and outputs
    `a_alt_alt.pptx`. -/
theorem c8_witness :
    (∃ o₁ o₂, process_pptx (fun _ => "t")
        (fun _ => Except.ok [[⟨MSO_PICTURE, Except.ok [3], ""⟩]]) "a.pptx" = Except.ok o₁ ∧
      process_pptx (fun _ => "t")
        (fun _ => Except.ok [[⟨MSO_PICTURE, Except.ok [3], ""⟩]]) "a_alt.pptx" = Except.ok o₂ ∧
      o₁.calls = o₂.calls ∧
      o₁.writes.map Prod.snd = o₂.writes.map Prod.snd ∧
      (o₁.result.isSome ↔ o₂.result.isSome) ∧
      (∀ r, o₁.result = some r → r = altPath "a.pptx") ∧
      (∀ r, o₂.result = some r → r = altPath "a_alt.pptx"))
    ∧ altPath "a.pptx" = "a_alt.pptx"
    ∧ altPath "a_alt.pptx" = "a_alt_alt.pptx" :=
  ⟨c8_rerun_no_guard (fun _ => "t")
     (fun _ => Except.ok [[⟨MSO_PICTURE, Except.ok [3], ""⟩]])
     "a.pptx" "a_alt.pptx" [[⟨MSO_PICTURE, Except.ok [3], ""⟩]] rfl rfl,
   by decide, by decide⟩

/-- C6: `process_file` dispatches on the lowercased extension: `.pptx`,
    `.docx` and `.pdf` each go to exactly that adapter (whose result,
    writes and calls become the file result), and any other extension
    yields a warning and `None` — no error, no adapter invocation, no
    captioning call, no write — uniformly in the world. -/
theorem c6_extension_dispatch (w : World) (path : String) :
    (extLower path = ".pptx" →
      ((∃ o, process_pptx w.cap w.openPptx path = Except.ok o ∧
          process_file w path = Except.ok
            ⟨o.result, o.writes.map (fun x => (x.1, SavedDoc.pptxDoc x.2)), o.calls, []⟩)
       ∨ (∃ e, process_pptx w.cap w.openPptx path = Except.error e ∧
          process_file w path = Except.error e)))
    ∧ (extLower path = ".docx" →
      ((∃ o, process_docx w.cap w.openDocx path = Except.ok o ∧
          process_file w path = Except.ok
            ⟨o.result, o.writes.map (fun x => (x.1, SavedDoc.docxDoc x.2)), o.calls, []⟩)
       ∨ (∃ e, process_docx w.cap w.openDocx path = Except.error e ∧
          process_file w path = Except.error e)))
    ∧ (extLower path = ".pdf" →
      ((∃ o, process_pdf w.cap w.openPdf path = Except.ok o ∧
          process_file w path = Except.ok
            ⟨o.result, o.writes.map (fun x => (x.1, SavedDoc.pdfDoc x.2)), o.calls, []⟩)
       ∨ (∃ e, process_pdf w.cap w.openPdf path = Except.error e ∧
          process_file w path = Except.error e)))
    ∧ (extLower path ∉ SUPPORTED_EXTENSIONS →
        process_file w path =
          Except.ok ⟨none, [], [], ["Unsupported file type: " ++ path]⟩) := by
  refine ⟨?_, ?_, ?_, ?_⟩
  · intro h
    unfold process_file
    rw [if_pos h]
    cases hr : process_pptx w.cap w.openPptx path with
    | error e => exact Or.inr ⟨e, rfl, rfl⟩
    | ok o => exact Or.inl ⟨o, rfl, rfl⟩
  · intro h
    unfold process_file
    rw [if_neg (by simp [h]), if_pos h]
    cases hr : process_docx w.cap w.openDocx path with
    | error e => exact Or.inr ⟨e, rfl, rfl⟩
    | ok o => exact Or.inl ⟨o, rfl, rfl⟩
  · intro h
    unfold process_file
    rw [if_neg (by simp [h]), if_neg (by simp [h]), if_pos h]
    cases hr : process_pdf w.cap w.openPdf path with
    | error e => exact Or.inr ⟨e, rfl, rfl⟩
    | ok o => exact Or.inl ⟨o, rfl, rfl⟩
  · intro h
    simp only [SUPPORTED_EXTENSIONS, List.mem_cons, List.mem_singleton,
      List.not_mem_nil, or_false, not_or] at h
    unfold process_file
    rw [if_neg h.1, if_neg h.2.1, if_neg h.2.2]

/-- C6 witness: an uppercase `.PPTX` extension dispatches to the PPTX
    adapter, and a `.txt` file yields only a warning with no writes and
    no captioning calls. -/
theorem c6_witness :
    ((∃ o, process_pptx (fun _ => "t") (fun _ => Except.ok ([] : Pptx)) "Slides.PPTX"
        = Except.ok o ∧
      process_file ⟨fun _ => "t", fun _ => Except.ok [], fun _ => Except.ok ⟨[], []⟩,
          fun _ => Except.ok []⟩ "Slides.PPTX" = Except.ok
        ⟨o.result, o.writes.map (fun x => (x.1, SavedDoc.pptxDoc x.2)), o.calls, []⟩)
     ∨ (∃ e, process_pptx (fun _ => "t") (fun _ => Except.ok ([] : Pptx)) "Slides.PPTX"
        = Except.error e ∧
      process_file ⟨fun _ => "t", fun _ => Except.ok [], fun _ => Except.ok ⟨[], []⟩,
          fun _ => Except.ok []⟩ "Slides.PPTX" = Except.error e))
    ∧ process_file ⟨fun _ => "t", fun _ => Except.ok [], fun _ => Except.ok ⟨[], []⟩,
          fun _ => Except.ok []⟩ "notes.txt" =
        Except.ok ⟨none, [], [], ["Unsupported file type: " ++ "notes.txt"]⟩ :=
  ⟨(c6_extension_dispatch
      ⟨fun _ => "t", fun _ => Except.ok [], fun _ => Except.ok ⟨[], []⟩,
       fun _ => Except.ok []⟩ "Slides.PPTX").1 (by decide),
   (c6_extension_dispatch
      ⟨fun _ => "t", fun _ => Except.ok [], fun _ => Except.ok ⟨[], []⟩,
       fun _ => Except.ok []⟩ "notes.txt").2.2.2 (by decide)⟩

/-- C1 counterexample: in a folder whose glob discovers `a.pptx` then
    `b.pptx`, a failure to open `a.pptx` propagates out of
    `process_folder` as an exception, and `b.pptx` — though discovered —
    is never processed; this refutes the claim that an exception raised
    while processing one document (including a failure to open it) never
    propagates and never prevents the remaining files. -/
theorem c1_counterexample :
    process_folder c1World c1Glob "docs" = Except.error "open failed"
    ∧ "b.pptx" ∈ discoveredFiles c1Glob "docs"
    ∧ "b.pptx" ∉ (runFiles c1World (discoveredFiles c1Glob "docs")).2.1 := by
  refine ⟨rfl, ?_, ?_⟩
  · decide
  · decide

/-- C1 amended: per-image exceptions are contained — once a document
    opens, each adapter always returns normally rather than raising —
    but a document-level exception (such as a failure to open the file)
    propagates out of `process_file`, stops the folder loop at that file
    so that no later file is processed, and propagates out of
    `process_folder`. -/
theorem c1_amended_containment :
    (∀ (cap : List Nat → String) (openF : String → Except String Pptx)
       (path : String) (slides : Pptx), openF path = Except.ok slides →
       ∃ o, process_pptx cap openF path = Except.ok o)
    ∧ (∀ (cap : List Nat → String) (openF : String → Except String DocxDoc)
       (path : String) (doc : DocxDoc), openF path = Except.ok doc →
       ∃ o, process_docx cap openF path = Except.ok o)
    ∧ (∀ (cap : List Nat → String) (openF : String → Except String PdfDoc)
       (path : String) (doc : PdfDoc), openF path = Except.ok doc →
       ∃ o, process_pdf cap openF path = Except.ok o)
    ∧ (∀ (w : World) (f : String) (fs : List String) (e : String),
        process_file w f = Except.error e →
        runFiles w (f :: fs) = ([], [f], some e))
    ∧ (∀ (w : World) (g : String → String → List String) (folder e : String),
        (runFiles w (discoveredFiles g folder)).2.2 = some e →
        process_folder w g folder = Except.error e) := by
  refine ⟨?_, ?_, ?_, ?_, ?_⟩
  · intro cap openF path slides hopen
    unfold process_pptx
    rw [hopen]
    dsimp only
    split
    · exact ⟨_, rfl⟩
    · exact ⟨_, rfl⟩
  · intro cap openF path doc hopen
    unfold process_docx
    rw [hopen]
    dsimp only
    split
    · exact ⟨_, rfl⟩
    · exact ⟨_, rfl⟩
  · intro cap openF path doc hopen
    unfold process_pdf
    rw [hopen]
    dsimp only
    split
    · exact ⟨_, rfl⟩
    · exact ⟨_, rfl⟩
  · intro w f fs e hf
    unfold runFiles
    rw [hf]
  · intro w g folder e h
    simp only [process_folder, h]

/-- C1 amended witness: concrete opened documents never make an adapter
    raise, while the concrete failing `a.pptx` open stops the folder run
    before `b.pptx` and surfaces as the folder-level error. -/
theorem c1_amended_witness :
    (∃ o, process_pptx (fun _ => "t") (fun _ => Except.ok ([[]] : Pptx)) "x.pptx"
        = Except.ok o)
    ∧ (∃ o, process_docx (fun _ => "t") (fun _ => Except.ok (⟨[], []⟩ : DocxDoc)) "x.docx"
        = Except.ok o)
    ∧ (∃ o, process_pdf (fun _ => "t") (fun _ => Except.ok ([] : PdfDoc)) "x.pdf"
        = Except.ok o)
    ∧ runFiles c1World ["a.pptx", "b.pptx"] = ([], ["a.pptx"], some "open failed")
    ∧ process_folder c1World c1Glob "docs" = Except.error "open failed" :=
  ⟨c1_amended_containment.1 (fun _ => "t") (fun _ => Except.ok [[]]) "x.pptx" [[]] rfl,
   c1_amended_containment.2.1 (fun _ => "t") (fun _ => Except.ok ⟨[], []⟩) "x.docx" ⟨[], []⟩ rfl,
   c1_amended_containment.2.2.1 (fun _ => "t") (fun _ => Except.ok []) "x.pdf" [] rfl,
   c1_amended_containment.2.2.2.1 c1World "a.pptx" ["b.pptx"] "open failed" rfl,
   c1_amended_containment.2.2.2.2 c1World c1Glob "docs" "open failed" rfl⟩

end Altides
